import Mathlib

/-!
A verification model of the gitleaks-action scan-orchestration pipeline
(`src/main.ts` and `src/scanner.ts`): exit-code mapping, scan-range
resolution, finding fingerprints, review-comment deduplication,
configuration parsing, binary provisioning keys, and degraded handling of
missing or malformed SARIF reports.

JavaScript conventions are embedded explicitly: a possibly-undefined
string is an `Option String`; JS string truthiness (`undefined` and `""`
are falsy) is `jsTruthy`; `a || b` on strings is `jsOr`; `undefined`
interpolated into a template literal renders as the text `"undefined"`
(`jsTemplate`); a code path that would throw a `TypeError` (such as
indexing into an empty array) is modelled by returning `none`.
-/

namespace GitleaksAction

/-- JS truthiness of a possibly-undefined string: `undefined` and the empty
string are falsy, every other string is truthy. -/
def jsTruthy : Option String → Bool
  | none => false
  | some s => s ≠ ""

/-- JS `a || b` where `a` is a possibly-undefined string: yields `b` exactly
when `a` is falsy. -/
def jsOr (a : Option String) (b : String) : String :=
  match a with
  | some s => if s = "" then b else s
  | none => b

/-- JS template-literal interpolation of a possibly-undefined string:
`undefined` renders as the literal text `undefined`. -/
def jsTemplate : Option String → String
  | some s => s
  | none => "undefined"

/-! ### SARIF report model

The subset of the SARIF structure consumed by both `main.ts`
(`SarifResult` with author metadata) and `scanner.ts`: a report holds
`runs`, each run optionally holds `results`, and each result carries
`ruleId`, `partialFingerprints` and `locations` with a nested
`physicalLocation`. Fields that JSON may omit are `Option`s. -/

structure ArtifactLocation where
  uri : String
  deriving DecidableEq

structure Region where
  startLine : Nat
  deriving DecidableEq

structure PhysicalLocation where
  artifactLocation : ArtifactLocation
  region : Region
  deriving DecidableEq

structure SarifLocation where
  physicalLocation : PhysicalLocation
  deriving DecidableEq

structure PartialFingerprints where
  commitSha : String
  author : String := ""
  date : String := ""
  email : String := ""
  deriving DecidableEq

structure SarifResult where
  ruleId : String
  partialFingerprints : PartialFingerprints
  locations : List SarifLocation
  deriving DecidableEq

structure SarifRun where
  results : Option (List SarifResult)
  deriving DecidableEq

structure Sarif where
  runs : Option (List SarifRun)
  deriving DecidableEq

namespace Scanner

/-! ### `scanner.ts` -/

/-- The `EXIT_CODES` constant of `scanner.ts` (engine exit-code convention). -/
structure ExitCodes where
  SUCCESS : Nat
  ERROR : Nat
  LEAKS_DETECTED : Nat

def EXIT_CODES : ExitCodes :=
  { SUCCESS := 0, ERROR := 1, LEAKS_DETECTED := 2 }

/-- The `GITLEAKS_CONFIG` constant of `scanner.ts` (release/report settings). -/
structure GitleaksConfig where
  releaseBaseUrl : String
  owner : String
  repo : String
  sarifOutputFile : String
  artifactName : String

def GITLEAKS_CONFIG : GitleaksConfig :=
  { releaseBaseUrl := "https://github.com/zricethezav/gitleaks/releases/download",
    owner := "zricethezav",
    repo := "gitleaks",
    sarifOutputFile := "results.sarif",
    artifactName := "gitleaks-results.sarif" }

structure ScanFlags where
  redact : Bool
  verbose : Bool
  exitCode : Nat
  reportFormat : String
  logLevel : String

structure ScanOptions where
  command : String
  flags : ScanFlags

/-- The `SCAN_OPTIONS` constant of `scanner.ts` (fixed engine flag set). -/
def SCAN_OPTIONS : ScanOptions :=
  { command := "detect",
    flags := { redact := true, verbose := true, exitCode := 2,
               reportFormat := "sarif", logLevel := "debug" } }

/-- `EXIT_CODE_LEAKS_DETECTED` export of `scanner.ts`. -/
def EXIT_CODE_LEAKS_DETECTED : Nat := EXIT_CODES.LEAKS_DETECTED

/-- `normalizePlatform` of `scanner.ts`: the alias `win32` maps to `windows`,
every other platform name passes through unchanged. -/
def normalizePlatform (platform : String) : String :=
  if platform = "win32" then "windows" else platform

/-- `buildReleaseUrl` of `scanner.ts`: release-archive URL built from the
normalized platform name. -/
def buildReleaseUrl (version platform arch : String) : String :=
  let normalizedPlatform := normalizePlatform platform
  let filename := "gitleaks_" ++ version ++ "_" ++ normalizedPlatform ++ "_" ++ arch ++ ".tar.gz"
  GITLEAKS_CONFIG.releaseBaseUrl ++ "/v" ++ version ++ "/" ++ filename

/-- `buildCacheKey` of `scanner.ts`: cache key built from the version, the
platform name exactly as given, and the architecture. -/
def buildCacheKey (version platform arch : String) : String :=
  "gitleaks-cache-" ++ version ++ "-" ++ platform ++ "-" ++ arch

/-- The provisioning identifiers `Install` computes for one run: it passes
the raw `process.platform` to `buildCacheKey`, while
`downloadAndInstallBinary` passes the same platform to `buildReleaseUrl`
(which normalizes it). -/
structure InstallProvisioning where
  cacheKey : String
  releaseUrl : String
  deriving DecidableEq

def installProvisioning (version platform arch : String) : InstallProvisioning :=
  { cacheKey := buildCacheKey version platform arch,
    releaseUrl := buildReleaseUrl version platform arch }

/-- The `ScanInfo` record of `scanner.ts`: both refs are optional. -/
structure ScanInfo where
  baseRef : Option String := none
  headRef : Option String := none
  deriving DecidableEq

/-- `buildGitLogOptions` of `scanner.ts`: for push and pull-request events,
equal refs yield the single-commit expression `-1`, distinct refs yield the
`--no-merges --first-parent base^..head` range; other events get no
log-range expression. -/
def buildGitLogOptions (scanInfo : ScanInfo) (eventType : String) : Option String :=
  if eventType = "push" ∨ eventType = "pull_request" then
    if scanInfo.baseRef = scanInfo.headRef then
      some "-1"
    else
      some ("--no-merges --first-parent " ++ jsTemplate scanInfo.baseRef
        ++ "^.." ++ jsTemplate scanInfo.headRef)
  else
    none

/-- `buildScanCommand` of `scanner.ts`: the fixed flag set, plus a
`--log-opts` argument when `buildGitLogOptions` produced one. -/
def buildScanCommand (scanInfo : ScanInfo) (eventType : String) : List String :=
  let args := [SCAN_OPTIONS.command,
    "--redact",
    "-v",
    "--exit-code=" ++ toString SCAN_OPTIONS.flags.exitCode,
    "--report-format=" ++ SCAN_OPTIONS.flags.reportFormat,
    "--report-path=" ++ GITLEAKS_CONFIG.sarifOutputFile,
    "--log-level=" ++ SCAN_OPTIONS.flags.logLevel]
  let logOpts := buildGitLogOptions scanInfo eventType
  if jsTruthy logOpts then args ++ ["--log-opts=" ++ jsOr logOpts ""] else args

/-- A commit record as returned by the pull-request commit-list endpoint,
and as nested under `base`/`head` of the pull-request payload. -/
structure CommitRef where
  sha : String
  deriving DecidableEq

structure PullRequestPayload where
  base : CommitRef
  head : CommitRef
  deriving DecidableEq

structure Repository where
  full_name : String
  deriving DecidableEq

/-- The `EventJSON` record of `scanner.ts`. -/
structure EventJSON where
  repository : Repository
  number : Nat
  pull_request : Option PullRequestPayload
  deriving DecidableEq

/-- `buildScanInfoFromCommits` of `scanner.ts`: base is the override when
truthy, else the first listed commit; head is the last listed commit.
`none` models the TypeError thrown on an empty commit list. -/
def buildScanInfoFromCommits (commits : List CommitRef) (baseRefOverride : Option String) :
    Option ScanInfo :=
  match commits.head?, commits.getLast? with
  | some first, some last =>
      some { baseRef := some (jsOr baseRefOverride first.sha), headRef := some last.sha }
  | _, _ => none

/-- The scan-range selection of `ScanPullRequest` in `scanner.ts`. The
boolean records whether the pull request's commit list was fetched from the
API; `commits` is the list that such a fetch would return. -/
def scanPullRequestRange (baseRefEnv : Option String) (eventJSON : EventJSON)
    (commits : List CommitRef) : Option (Bool × ScanInfo) :=
  if jsTruthy baseRefEnv then
    (buildScanInfoFromCommits commits baseRefEnv).map fun scanInfo => (true, scanInfo)
  else
    match eventJSON.pull_request with
    | some pr =>
        some (false, { baseRef := some pr.base.sha, headRef := some pr.head.sha })
    | none =>
        (buildScanInfoFromCommits commits none).map fun scanInfo => (true, scanInfo)

/-- `shouldPostComments` of `scanner.ts`: commenting is disabled only by the
exact value `false`. -/
def shouldPostComments (gitleaksEnableComments : Option String) : Bool :=
  gitleaksEnableComments ≠ some "false"

/-- The `PRComment` record of `scanner.ts`: a review comment to be created. -/
structure PRComment where
  owner : String
  repo : String
  pull_number : Nat
  body : String
  commit_id : String
  path : String
  side : String
  line : Nat
  deriving DecidableEq

/-- The `ExistingComment` record of `scanner.ts`: a review comment fetched
from the pull request; `original_line` may be absent. -/
structure ExistingComment where
  body : String
  path : String
  original_line : Option Nat
  deriving DecidableEq

/-- `isCommentDuplicate` of `scanner.ts`: exact match on body, path, and the
existing comment's `original_line` against the proposed comment's `line`. -/
def isCommentDuplicate (existingComment : ExistingComment) (proposedComment : PRComment) :
    Bool :=
  existingComment.body == proposedComment.body &&
  existingComment.path == proposedComment.path &&
  existingComment.original_line == some proposedComment.line

/-- `commentAlreadyExists` of `scanner.ts`. -/
def commentAlreadyExists (existingComments : List ExistingComment)
    (proposedComment : PRComment) : Bool :=
  existingComments.any fun comment => isCommentDuplicate comment proposedComment

/-- `buildSecretFingerprint` of `scanner.ts`: the four identity fields joined
with `:` in the fixed order commitSha, filePath, ruleId, startLine. `none`
models the TypeError on a result with no locations. -/
def buildSecretFingerprint (result : SarifResult) : Option String :=
  result.locations.head?.map fun location =>
    result.partialFingerprints.commitSha
      ++ ":" ++ location.physicalLocation.artifactLocation.uri
      ++ ":" ++ result.ruleId
      ++ ":" ++ toString location.physicalLocation.region.startLine

/-- `buildCommentBody` of `scanner.ts`: rotation/suppression instructions,
optionally followed by a mention list when the user list is truthy. -/
def buildCommentBody (result : SarifResult) (fingerprint : String)
    (userList : Option String) : String :=
  let body := "🛑 **Gitleaks** has detected a secret with rule-id `"
    ++ result.ruleId ++ "` in commit " ++ result.partialFingerprints.commitSha
    ++ ".\nIf this secret is a _true_ positive, please rotate the secret ASAP.\n\n"
    ++ "If this secret is a _false_ positive, you can add the fingerprint below to your "
    ++ "`.gitleaksignore` file and commit the change to this branch.\n\n"
    ++ "```\necho " ++ fingerprint ++ " >> .gitleaksignore\n```\n"
  if jsTruthy userList then body ++ "\n\ncc " ++ jsOr userList "" else body

/-- `buildReviewComment` of `scanner.ts`: one review comment per finding,
anchored at the finding's file and start line on the RIGHT side; the user
list parameter models `process.env.GITLEAKS_NOTIFY_USER_LIST`. -/
def buildReviewComment (result : SarifResult) (owner repo : String) (pullNumber : Nat)
    (userList : Option String) : Option PRComment :=
  result.locations.head?.bind fun location =>
    (buildSecretFingerprint result).map fun fingerprint =>
      { owner := owner,
        repo := repo,
        pull_number := pullNumber,
        body := buildCommentBody result fingerprint userList,
        commit_id := result.partialFingerprints.commitSha,
        path := location.physicalLocation.artifactLocation.uri,
        side := "RIGHT",
        line := location.physicalLocation.region.startLine }

/-- `parseSarifFile` of `scanner.ts`: `none` for a missing or unreadable
file, a `TypeError` while indexing `sarif.runs[0]` (caught and turned into
`null`), or an absent `results` key; otherwise the results list. The
argument is the parsed content of `results.sarif`, `none` when the file is
missing or malformed. -/
def parseSarifFile (sarifFile : Option Sarif) : Option (List SarifResult) :=
  match sarifFile with
  | none => none
  | some sarif =>
    match sarif.runs with
    | none => none
    | some runs =>
      match runs.head? with
      | none => none
      | some run0 => run0.results

/-- The posting loop of `postPullRequestComments`: build each finding's
review comment and post it unless it duplicates an existing comment.
Returns the list of comments actually posted, in order; `none` models a
TypeError while building a comment. -/
def postCommentsLoop (existingComments : List ExistingComment) (owner repo : String)
    (pullNumber : Nat) (userList : Option String) :
    List SarifResult → Option (List PRComment)
  | [] => some []
  | secret :: rest => do
    let comment ← buildReviewComment secret owner repo pullNumber userList
    let tail ← postCommentsLoop existingComments owner repo pullNumber userList rest
    pure (if commentAlreadyExists existingComments comment then tail else comment :: tail)

/-- `postPullRequestComments` of `scanner.ts`: nothing is posted unless the
engine exit code is `LEAKS_DETECTED` and the parsed report yields a
non-empty findings list; otherwise each finding is posted through the
deduplicating loop. -/
def postPullRequestComments (exitCode : Nat) (sarifFile : Option Sarif)
    (existingComments : List ExistingComment) (owner repo : String) (pullNumber : Nat)
    (userList : Option String) : Option (List PRComment) :=
  if exitCode ≠ EXIT_CODES.LEAKS_DETECTED then some []
  else
    match parseSarifFile sarifFile with
    | none => some []
    | some secrets =>
      if secrets.length = 0 then some []
      else postCommentsLoop existingComments owner repo pullNumber userList secrets

/-- How GitHub records a freshly posted review comment for a later fetch:
body and path as posted, `original_line` set to the posted `line` (the
mapping under which claim C2 supplies the first run's comments back to the
second run). -/
def toExistingComment (comment : PRComment) : ExistingComment :=
  { body := comment.body, path := comment.path, original_line := some comment.line }

end Scanner

namespace Main

/-! ### `main.ts` -/

/-- The `EXIT_CODES` constant of `main.ts` (engine exit-code convention as
seen by the report module). -/
structure ExitCodes where
  SUCCESS : Nat
  ERROR : Nat
  LEAKS_FOUND : Nat

def EXIT_CODES : ExitCodes :=
  { SUCCESS := 0, ERROR := 1, LEAKS_FOUND := 2 }

/-- The `EXIT_STATUS` constant of `main.ts` (the process's own exit-status
convention). -/
structure ExitStatus where
  SUCCESS : Nat
  LEAKS_DETECTED : Nat

def EXIT_STATUS : ExitStatus :=
  { SUCCESS := 0, LEAKS_DETECTED := 1 }

def DEFAULT_GITLEAKS_VERSION : String := "8.24.3"

/-- The process environment as read by the action: each recognized variable,
plus `GITLEAKS_CONFIG` (documented in the README), as possibly-undefined
strings. -/
structure Env where
  GITLEAKS_ENABLE_SUMMARY : Option String := none
  GITLEAKS_ENABLE_UPLOAD_ARTIFACT : Option String := none
  GITLEAKS_VERSION : Option String := none
  BASE_REF : Option String := none
  GITLEAKS_CONFIG : Option String := none
  GITLEAKS_ENABLE_COMMENTS : Option String := none
  GITLEAKS_NOTIFY_USER_LIST : Option String := none
  deriving DecidableEq

/-- The `Config` record of `main.ts`. -/
structure Config where
  enableSummary : Bool
  enableUploadArtifact : Bool
  version : String
  baseRef : Option String
  deriving DecidableEq

/-- `parseBooleanEnv` of `main.ts`: false exactly on the values `false` and
`0`, the default otherwise (the value parameter stands for
`process.env[key]`). -/
def parseBooleanEnv (value : Option String) (defaultValue : Bool) : Bool :=
  if value = some "false" ∨ value = some "0" then false else defaultValue

/-- `parseEnvironmentConfig` of `main.ts`: reads exactly the four variables
`GITLEAKS_ENABLE_SUMMARY`, `GITLEAKS_ENABLE_UPLOAD_ARTIFACT`,
`GITLEAKS_VERSION` and `BASE_REF`. -/
def parseEnvironmentConfig (env : Env) : Config :=
  { enableSummary := parseBooleanEnv env.GITLEAKS_ENABLE_SUMMARY true,
    enableUploadArtifact := parseBooleanEnv env.GITLEAKS_ENABLE_UPLOAD_ARTIFACT true,
    version := jsOr env.GITLEAKS_VERSION DEFAULT_GITLEAKS_VERSION,
    baseRef := env.BASE_REF }

structure Owner where
  login : String
  deriving DecidableEq

structure Repository where
  html_url : String
  owner : Owner
  full_name : String
  name : String
  deriving DecidableEq

structure PushCommit where
  id : String
  deriving DecidableEq

/-- The `EventData` record of `main.ts`. -/
structure EventData where
  repository : Repository
  commits : Option (List PushCommit) := none
  number : Nat := 0
  deriving DecidableEq

/-- `buildPushScanInfo` of `main.ts`: an absent or empty commit list calls
`process.exit(EXIT_STATUS.SUCCESS)`, modelled as `.error` carrying that
status; otherwise base is the override when truthy else the first commit,
and head is the last commit. -/
def buildPushScanInfo (eventData : EventData) (baseRefOverride : Option String) :
    Except Nat Scanner.ScanInfo :=
  match eventData.commits with
  | none => .error EXIT_STATUS.SUCCESS
  | some [] => .error EXIT_STATUS.SUCCESS
  | some (first :: rest) =>
    let last := (first :: rest).getLast (List.cons_ne_nil first rest)
    .ok { baseRef := some (jsOr baseRefOverride first.id), headRef := some last.id }

/-- The observable result of the push path of `performScan`: either the
early exit taken before any engine work, or the engine invocation that was
built and executed. -/
inductive PushRunResult where
  | earlyExit (status : Nat)
  | scanned (args : List String) (scanInfo : Scanner.ScanInfo)
  deriving DecidableEq

/-- The push path of `performScan` in `main.ts`: resolve the scan range via
`buildPushScanInfo`; on early exit no scan command is ever built, otherwise
the engine is invoked with `buildScanCommand scanInfo "push"`. -/
def runPushEvent (eventData : EventData) (baseRefOverride : Option String) : PushRunResult :=
  match buildPushScanInfo eventData baseRefOverride with
  | .error status => .earlyExit status
  | .ok scanInfo => .scanned (Scanner.buildScanCommand scanInfo "push") scanInfo

/-- The `RunOutcome` of one run, as decided by `handleScanResult`. -/
inductive RunOutcome where
  | clean
  | leaksFound
  | executionError (code : Nat)
  deriving DecidableEq

/-- `handleScanResult` of `main.ts`: exit code 0 is clean, the scanner's
`EXIT_CODE_LEAKS_DETECTED` (2) is leaks found, anything else is an
execution error carrying the raw code. -/
def handleScanResult (exitCode : Nat) : RunOutcome :=
  if exitCode = EXIT_STATUS.SUCCESS then .clean
  else if exitCode = Scanner.EXIT_CODE_LEAKS_DETECTED then .leaksFound
  else .executionError exitCode

/-- The process exit status each branch of `handleScanResult` produces:
the clean branch returns and the process finishes with status 0, the
leaks-found branch calls `process.exit(EXIT_STATUS.LEAKS_DETECTED)`, and
the default branch calls `process.exit(exitCode)`. -/
def processExitStatus : RunOutcome → Nat
  | .clean => EXIT_STATUS.SUCCESS
  | .leaksFound => EXIT_STATUS.LEAKS_DETECTED
  | .executionError code => code

/-! ### Report module of `main.ts` -/

/-- A rendered job summary: a heading, optionally with a findings table. -/
inductive Summary where
  | heading (text : String)
  | headingWithTable (text : String) (table : List (List String))
  deriving DecidableEq

/-- The `TABLE_HEADERS` constant of `main.ts` (header text of each cell). -/
def TABLE_HEADERS : List String :=
  ["Rule ID", "Commit", "Secret URL", "Start Line", "Author", "Date", "Email", "File"]

def buildCommitUrl (repoUrl commitSha : String) : String :=
  repoUrl ++ "/commit/" ++ commitSha

def buildSecretUrl (repoUrl commitSha filePath : String) (lineNumber : Nat) : String :=
  repoUrl ++ "/blob/" ++ commitSha ++ "/" ++ filePath ++ "#L" ++ toString lineNumber

def buildFileUrl (repoUrl commitSha filePath : String) : String :=
  repoUrl ++ "/blob/" ++ commitSha ++ "/" ++ filePath

/-- `formatSecretRow` of `main.ts`: one table row per finding; `none` models
the TypeError on a finding with no locations. -/
def formatSecretRow (secret : SarifResult) (repoUrl : String) : Option (List String) :=
  secret.locations.head?.map fun location =>
    let commitSha := secret.partialFingerprints.commitSha
    let filePath := location.physicalLocation.artifactLocation.uri
    let lineNumber := location.physicalLocation.region.startLine
    let commitUrl := buildCommitUrl repoUrl commitSha
    let secretUrl := buildSecretUrl repoUrl commitSha filePath lineNumber
    let fileUrl := buildFileUrl repoUrl commitSha filePath
    [secret.ruleId,
     "<a href=\"" ++ commitUrl ++ "\">" ++ commitSha.take 7 ++ "</a>",
     "<a href=\"" ++ secretUrl ++ "\">View Secret</a>",
     toString lineNumber,
     secret.partialFingerprints.author,
     secret.partialFingerprints.date,
     secret.partialFingerprints.email,
     "<a href=\"" ++ fileUrl ++ "\">" ++ filePath ++ "</a>"]

/-- `parseSarifResults` of `main.ts`: `none` for a missing or unparsable
file or when `runs`, `runs[0]` or `runs[0].results` is absent; otherwise
the results list (possibly empty). -/
def parseSarifResults (sarifFile : Option Sarif) : Option (List SarifResult) :=
  match sarifFile with
  | none => none
  | some sarif =>
    match sarif.runs with
    | none => none
    | some runs =>
      match runs.head? with
      | none => none
      | some run0 => run0.results

/-- `buildSecretsTable` of `main.ts`: the header row followed by one row per
finding; `none` models a TypeError on a finding with no locations. -/
def buildSecretsTable (secrets : List SarifResult) (repoUrl : String) :
    Option (List (List String)) :=
  (secrets.mapM fun secret => formatSecretRow secret repoUrl).map
    fun rows => TABLE_HEADERS :: rows

/-- `writeLeaksDetectedSummary` of `main.ts`: a degraded heading when the
report yields no findings (or cannot be parsed), otherwise the findings
table. -/
def writeLeaksDetectedSummary (sarifFile : Option Sarif) (repoUrl : String) :
    Option Summary :=
  match parseSarifResults sarifFile with
  | none => some (.heading "⚠️ Gitleaks reported leaks but no details found")
  | some secrets =>
    if secrets.length = 0 then
      some (.heading "⚠️ Gitleaks reported leaks but no details found")
    else
      (buildSecretsTable secrets repoUrl).map fun tableData =>
        .headingWithTable "🛑 Gitleaks detected secrets 🛑" tableData

/-- `writeSuccessSummary` of `main.ts`. -/
def writeSuccessSummary : Summary := .heading "No leaks detected ✅"

/-- `writeErrorSummary` of `main.ts`. -/
def writeErrorSummary (exitCode : Nat) : Summary :=
  if exitCode = EXIT_CODES.ERROR then
    .heading ("❌ Gitleaks exited with error. Exit code [" ++ toString exitCode ++ "]")
  else
    .heading ("❌ Gitleaks exited with unexpected exit code [" ++ toString exitCode ++ "]")

/-- `writeSummary` of `main.ts`: dispatch on the engine exit code. -/
def writeSummary (exitCode : Nat) (sarifFile : Option Sarif) (eventJSON : EventData) :
    Option Summary :=
  let repoUrl := eventJSON.repository.html_url
  if exitCode = EXIT_CODES.SUCCESS then some writeSuccessSummary
  else if exitCode = EXIT_CODES.LEAKS_FOUND then writeLeaksDetectedSummary sarifFile repoUrl
  else some (writeErrorSummary exitCode)

end Main

/-! ### Decimal rendering

A structurally simple equivalent of `Nat.repr` (the rendering of a number
interpolated into a JS template literal), used to reason about fingerprint
strings. -/

/-- The decimal digit characters of `n`, most significant first. -/
def decDigits (n : Nat) : List Char :=
  if _h : n < 10 then [Nat.digitChar n]
  else decDigits (n / 10) ++ [Nat.digitChar (n % 10)]
  termination_by n
  decreasing_by exact Nat.div_lt_self (by omega) (by omega)

/-- A string that contains no `:` separator character. -/
def colonFree (s : String) : Prop := ':' ∉ s.data

instance (s : String) : Decidable (colonFree s) := by
  unfold colonFree; infer_instance


/-! ## Support lemmas -/

lemma decDigits_eq_small {n : Nat} (h : n < 10) : decDigits n = [Nat.digitChar n] := by
  rw [decDigits]
  exact dif_pos h

lemma decDigits_eq_large {n : Nat} (h : ¬ n < 10) :
    decDigits n = decDigits (n / 10) ++ [Nat.digitChar (n % 10)] := by
  conv_lhs => rw [decDigits]
  exact dif_neg h

lemma digitChar_ne_colon : ∀ m, m < 10 → Nat.digitChar m ≠ ':' := by decide

lemma digitChar_injOn :
    ∀ m, m < 10 → ∀ k, k < 10 → Nat.digitChar m = Nat.digitChar k → m = k := by decide

lemma decDigits_ne_nil (n : Nat) : decDigits n ≠ [] := by
  by_cases h : n < 10
  · rw [decDigits_eq_small h]; simp
  · rw [decDigits_eq_large h]; simp

lemma decDigits_ne_colon (n : Nat) : ∀ c ∈ decDigits n, c ≠ ':' := by
  induction n using Nat.strong_induction_on with
  | _ n ih =>
    by_cases h : n < 10
    · rw [decDigits_eq_small h]
      intro c hc
      rw [List.mem_singleton] at hc
      subst hc
      exact digitChar_ne_colon n h
    · rw [decDigits_eq_large h]
      intro c hc
      rw [List.mem_append, List.mem_singleton] at hc
      rcases hc with hc | hc
      · exact ih (n / 10) (Nat.div_lt_self (by omega) (by omega)) c hc
      · subst hc
        exact digitChar_ne_colon _ (Nat.mod_lt _ (by omega))

lemma decDigits_injective : ∀ m n : Nat, decDigits m = decDigits n → m = n := by
  intro m
  induction m using Nat.strong_induction_on with
  | _ m ih =>
    intro n h
    by_cases hm : m < 10 <;> by_cases hn : n < 10
    · rw [decDigits_eq_small hm, decDigits_eq_small hn] at h
      simp only [List.cons.injEq, and_true] at h
      exact digitChar_injOn m hm n hn h
    · exfalso
      rw [decDigits_eq_small hm, decDigits_eq_large hn] at h
      have hlen := congrArg List.length h
      simp only [List.length_singleton, List.length_append] at hlen
      have := decDigits_ne_nil (n / 10)
      have hpos : 0 < (decDigits (n / 10)).length := List.length_pos.mpr this
      omega
    · exfalso
      rw [decDigits_eq_large hm, decDigits_eq_small hn] at h
      have hlen := congrArg List.length h
      simp only [List.length_singleton, List.length_append] at hlen
      have := decDigits_ne_nil (m / 10)
      have hpos : 0 < (decDigits (m / 10)).length := List.length_pos.mpr this
      omega
    · rw [decDigits_eq_large hm, decDigits_eq_large hn] at h
      have h' := congrArg List.reverse h
      simp only [List.reverse_append, List.reverse_singleton, List.singleton_append,
        List.cons.injEq, List.reverse_inj] at h'
      obtain ⟨hdig, htail⟩ := h'
      have hmod : m % 10 = n % 10 :=
        digitChar_injOn _ (Nat.mod_lt _ (by omega)) _ (Nat.mod_lt _ (by omega)) hdig
      have hdiv : m / 10 = n / 10 :=
        ih (m / 10) (Nat.div_lt_self (by omega) (by omega)) (n / 10) htail
      omega

lemma toDigitsCore_eq_decDigits (fuel : Nat) :
    ∀ (n : Nat) (ds : List Char), n < fuel →
      Nat.toDigitsCore 10 fuel n ds = decDigits n ++ ds := by
  induction fuel with
  | zero => intro n ds h; omega
  | succ fuel ih =>
    intro n ds h
    simp only [Nat.toDigitsCore]
    by_cases h10 : n / 10 = 0
    · rw [if_pos h10]
      have hn : n < 10 := by omega
      rw [decDigits_eq_small hn, Nat.mod_eq_of_lt hn]
      simp
    · rw [if_neg h10]
      have hlt : n / 10 < fuel := by omega
      rw [ih (n / 10) _ hlt]
      have : ¬ n < 10 := by
        intro hc
        exact h10 (Nat.div_eq_of_lt hc)
      rw [decDigits_eq_large this]
      simp

lemma natRepr_eq_decDigits (n : Nat) : Nat.repr n = (decDigits n).asString := by
  unfold Nat.repr Nat.toDigits
  rw [toDigitsCore_eq_decDigits (n + 1) n [] (by omega)]
  simp

lemma natRepr_data (n : Nat) : (Nat.repr n).data = decDigits n := by
  rw [natRepr_eq_decDigits]
  rfl

lemma natRepr_injective (m n : Nat) (h : Nat.repr m = Nat.repr n) : m = n := by
  apply decDigits_injective
  rw [← natRepr_data, ← natRepr_data, h]

lemma natRepr_colonFree (n : Nat) : ':' ∉ (Nat.repr n).data := by
  rw [natRepr_data]
  intro hmem
  exact decDigits_ne_colon n ':' hmem rfl

lemma toString_nat_eq (n : Nat) : toString n = Nat.repr n := rfl


lemma append_colon_inj :
    ∀ (xs xs' rest rest' : List Char), ':' ∉ xs → ':' ∉ xs' →
      xs ++ ':' :: rest = xs' ++ ':' :: rest' → xs = xs' ∧ rest = rest' := by
  intro xs
  induction xs with
  | nil =>
    intro xs' rest rest' _ hx' h
    cases xs' with
    | nil => simpa using h
    | cons b u =>
      exfalso
      simp only [List.nil_append, List.cons_append, List.cons.injEq] at h
      exact hx' (by rw [← h.1]; exact List.mem_cons_self ':' u)
  | cons a t ih =>
    intro xs' rest rest' hx hx' h
    cases xs' with
    | nil =>
      exfalso
      simp only [List.cons_append, List.nil_append, List.cons.injEq] at h
      exact hx (by rw [h.1]; exact List.mem_cons_self ':' t)
    | cons b u =>
      simp only [List.cons_append, List.cons.injEq] at h
      obtain ⟨hab, h2⟩ := h
      have hxt : ':' ∉ t := fun hm => hx (List.mem_cons_of_mem a hm)
      have hxu : ':' ∉ u := fun hm => hx' (List.mem_cons_of_mem b hm)
      obtain ⟨h3, h4⟩ := ih u rest rest' hxt hxu h2
      exact ⟨by rw [hab, h3], h4⟩

lemma fingerprint_fields_eq (c1 f1 r1 : String) (n1 : Nat) (c2 f2 r2 : String) (n2 : Nat)
    (hc1 : colonFree c1) (hc2 : colonFree c2) (hf1 : colonFree f1) (hf2 : colonFree f2)
    (hr1 : colonFree r1) (hr2 : colonFree r2)
    (h : c1 ++ ":" ++ f1 ++ ":" ++ r1 ++ ":" ++ toString n1
       = c2 ++ ":" ++ f2 ++ ":" ++ r2 ++ ":" ++ toString n2) :
    c1 = c2 ∧ f1 = f2 ∧ r1 = r2 ∧ n1 = n2 := by
  have hd := congrArg String.data h
  have hcolon : (":" : String).data = [':'] := rfl
  simp only [String.data_append, hcolon, List.append_assoc, List.singleton_append] at hd
  obtain ⟨e1, hd⟩ := append_colon_inj _ _ _ _ hc1 hc2 hd
  obtain ⟨e2, hd⟩ := append_colon_inj _ _ _ _ hf1 hf2 hd
  obtain ⟨e3, hd⟩ := append_colon_inj _ _ _ _ hr1 hr2 hd
  refine ⟨String.ext e1, String.ext e2, String.ext e3, ?_⟩
  apply natRepr_injective
  rw [toString_nat_eq] at hd
  exact String.ext hd

lemma parseSarifResults_eq_parseSarifFile :
    Main.parseSarifResults = Scanner.parseSarifFile := rfl

lemma isCommentDuplicate_toExisting (c : Scanner.PRComment) :
    Scanner.isCommentDuplicate (Scanner.toExistingComment c) c = true := by
  simp [Scanner.isCommentDuplicate, Scanner.toExistingComment]

lemma commentAlreadyExists_mono {existing1 existing2 : List Scanner.ExistingComment}
    (hmono : ∀ e ∈ existing1, e ∈ existing2) (c : Scanner.PRComment)
    (h : Scanner.commentAlreadyExists existing1 c = true) :
    Scanner.commentAlreadyExists existing2 c = true := by
  rw [Scanner.commentAlreadyExists, List.any_eq_true] at h ⊢
  obtain ⟨e, he, hdup⟩ := h
  exact ⟨e, hmono e he, hdup⟩

lemma commentAlreadyExists_of_toExisting_mem {existing : List Scanner.ExistingComment}
    (c : Scanner.PRComment) (h : Scanner.toExistingComment c ∈ existing) :
    Scanner.commentAlreadyExists existing c = true := by
  rw [Scanner.commentAlreadyExists, List.any_eq_true]
  exact ⟨Scanner.toExistingComment c, h, isCommentDuplicate_toExisting c⟩

lemma postCommentsLoop_isSome {existing1 existing2 : List Scanner.ExistingComment}
    {owner repo : String} {pullNumber : Nat} {userList : Option String} :
    ∀ (secrets : List SarifResult) (posted : List Scanner.PRComment),
      Scanner.postCommentsLoop existing1 owner repo pullNumber userList secrets
        = some posted →
      ∃ posted2, Scanner.postCommentsLoop existing2 owner repo pullNumber userList secrets
        = some posted2 := by
  intro secrets
  induction secrets with
  | nil => exact fun posted _ => ⟨[], rfl⟩
  | cons s rest ih =>
    intro posted h
    rcases hb : Scanner.buildReviewComment s owner repo pullNumber userList with _ | c0
    · rw [Scanner.postCommentsLoop, hb] at h
      simp at h
    rcases hl : Scanner.postCommentsLoop existing1 owner repo pullNumber userList rest
        with _ | tail
    · rw [Scanner.postCommentsLoop, hb, hl] at h
      simp at h
    obtain ⟨tail2, h2⟩ := ih tail hl
    refine ⟨if Scanner.commentAlreadyExists existing2 c0 then tail2 else c0 :: tail2, ?_⟩
    rw [Scanner.postCommentsLoop, hb, h2]
    rfl

lemma postCommentsLoop_mem {existing : List Scanner.ExistingComment}
    {owner repo : String} {pullNumber : Nat} {userList : Option String} :
    ∀ (secrets : List SarifResult) (posted : List Scanner.PRComment),
      Scanner.postCommentsLoop existing owner repo pullNumber userList secrets
        = some posted →
      ∀ c : Scanner.PRComment,
        c ∈ posted ↔ (Scanner.commentAlreadyExists existing c = false ∧
          ∃ s ∈ secrets,
            Scanner.buildReviewComment s owner repo pullNumber userList = some c) := by
  intro secrets
  induction secrets with
  | nil =>
    intro posted h c
    rw [Scanner.postCommentsLoop] at h
    simp only [Option.some.injEq] at h
    subst h
    simp
  | cons s rest ih =>
    intro posted h c
    rcases hb : Scanner.buildReviewComment s owner repo pullNumber userList with _ | c0
    · rw [Scanner.postCommentsLoop, hb] at h
      simp at h
    rcases hl : Scanner.postCommentsLoop existing owner repo pullNumber userList rest
        with _ | tail
    · rw [Scanner.postCommentsLoop, hb, hl] at h
      simp at h
    rw [Scanner.postCommentsLoop, hb, hl] at h
    simp only [Option.bind_eq_bind, Option.some_bind, Option.pure_def, Option.some.injEq] at h
    subst h
    have htail := ih tail hl c
    by_cases hdup : Scanner.commentAlreadyExists existing c0 = true
    · rw [if_pos hdup]
      rw [htail]
      constructor
      · rintro ⟨hnd, s', hs', hbs'⟩
        exact ⟨hnd, s', List.mem_cons_of_mem s hs', hbs'⟩
      · rintro ⟨hnd, s', hs', hbs'⟩
        rcases List.mem_cons.mp hs' with hss | hss
        · exfalso
          subst hss
          rw [hb] at hbs'
          simp only [Option.some.injEq] at hbs'
          subst hbs'
          rw [hdup] at hnd
          exact absurd hnd (by decide)
        · exact ⟨hnd, s', hss, hbs'⟩
    · rw [if_neg hdup]
      have hdupf : Scanner.commentAlreadyExists existing c0 = false :=
        Bool.not_eq_true _ ▸ (by simpa using hdup)
      constructor
      · intro hmem
        rcases List.mem_cons.mp hmem with hcc | hcc
        · subst hcc
          exact ⟨hdupf, s, List.mem_cons_self s rest, hb⟩
        · obtain ⟨hnd, s', hs', hbs'⟩ := htail.mp hcc
          exact ⟨hnd, s', List.mem_cons_of_mem s hs', hbs'⟩
      · rintro ⟨hnd, s', hs', hbs'⟩
        rcases List.mem_cons.mp hs' with hss | hss
        · subst hss
          rw [hb] at hbs'
          simp only [Option.some.injEq] at hbs'
          subst hbs'
          exact List.mem_cons_self c0 tail
        · exact List.mem_cons_of_mem c0 (htail.mpr ⟨hnd, s', hss, hbs'⟩)


lemma take9_log_opts_arg (e : String) :
    List.take 9 ("--log-opts=" ++ e).data = ['-', '-', 'l', 'o', 'g', '-', 'o', 'p', 't'] :=
  rfl

/-! ## Claim theorems -/

/-- C1: the exit-code mapping of `handleScanResult` is total and exhaustive —
every raw engine exit code yields exactly one `RunOutcome`; 0 maps to
`clean` (the process finishes with status 0), 2 maps to `leaksFound` (the
process exits with the distinct findings status 1), and every other code
maps to `executionError`, whose raw code is propagated unchanged as the
process exit status. -/
theorem c1_exit_code_mapping (exitCode : Nat) :
    (Main.handleScanResult exitCode = .clean ∨
      Main.handleScanResult exitCode = .leaksFound ∨
      Main.handleScanResult exitCode = .executionError exitCode) ∧
    (Main.handleScanResult exitCode = .clean ↔ exitCode = 0) ∧
    (Main.handleScanResult exitCode = .leaksFound ↔ exitCode = 2) ∧
    (∀ code, Main.handleScanResult exitCode = .executionError code →
      code = exitCode ∧ exitCode ≠ 0 ∧ exitCode ≠ 2) ∧
    (exitCode = 0 → Main.processExitStatus (Main.handleScanResult exitCode) = 0) ∧
    (exitCode = 2 → Main.processExitStatus (Main.handleScanResult exitCode) = 1) ∧
    (exitCode ≠ 0 → exitCode ≠ 2 →
      Main.processExitStatus (Main.handleScanResult exitCode) = exitCode) := by
  by_cases h0 : exitCode = 0 <;> by_cases h2 : exitCode = 2 <;>
    simp [Main.handleScanResult, Main.processExitStatus, Main.EXIT_STATUS,
      Scanner.EXIT_CODE_LEAKS_DETECTED, Scanner.EXIT_CODES, h0, h2]

/-- Witness for C1 at the concrete exit code 7 (neither 0 nor 2): the
outcome is an execution error and the status 7 is propagated unchanged. -/
theorem c1_witness :
    Main.handleScanResult 7 = .executionError 7 ∧
    Main.processExitStatus (Main.handleScanResult 7) = 7 := by
  have h := c1_exit_code_mapping 7
  refine ⟨?_, h.2.2.2.2.2.2 (by decide) (by decide)⟩
  rcases h.1 with h' | h' | h'
  · exact absurd (h.2.1.mp h') (by decide)
  · exact absurd (h.2.2.1.mp h') (by decide)
  · exact h'

/-- C4: a push event whose commit list is empty or absent terminates
immediately with the clean exit status `EXIT_STATUS.SUCCESS`, and the
engine is never invoked — no scan command is built. -/
theorem c4_empty_push_clean (eventData : Main.EventData) (baseRefOverride : Option String)
    (h : eventData.commits = none ∨ eventData.commits = some []) :
    Main.buildPushScanInfo eventData baseRefOverride = .error Main.EXIT_STATUS.SUCCESS ∧
    Main.runPushEvent eventData baseRefOverride = .earlyExit Main.EXIT_STATUS.SUCCESS ∧
    ∀ args scanInfo, Main.runPushEvent eventData baseRefOverride ≠ .scanned args scanInfo := by
  have hinfo : Main.buildPushScanInfo eventData baseRefOverride
      = .error Main.EXIT_STATUS.SUCCESS := by
    rcases h with h | h <;> simp [Main.buildPushScanInfo, h]
  refine ⟨hinfo, ?_, ?_⟩
  · rw [Main.runPushEvent, hinfo]
  · intro args scanInfo hc
    rw [Main.runPushEvent, hinfo] at hc
    exact Main.PushRunResult.noConfusion hc

/-- Witness for C4: a concrete push event carrying no commits exits early
with status 0. -/
theorem c4_witness :
    Main.runPushEvent
      { repository :=
          { html_url := "https://github.com/o/r",
            owner := { login := "o" },
            full_name := "o/r",
            name := "r" },
        commits := none }
      none = .earlyExit 0 :=
  (c4_empty_push_clean _ none (Or.inl rfl)).2.1

/-- C5: for push and pull-request scans, equal base/head refs always yield
the single-commit log expression `-1` — never an empty or malformed range —
and distinct refs yield the range form `--no-merges --first-parent
base^..head`. -/
theorem c5_log_range (scanInfo : Scanner.ScanInfo) (eventType : String)
    (h : eventType = "push" ∨ eventType = "pull_request") :
    (scanInfo.baseRef = scanInfo.headRef →
      Scanner.buildGitLogOptions scanInfo eventType = some "-1") ∧
    (scanInfo.baseRef ≠ scanInfo.headRef →
      Scanner.buildGitLogOptions scanInfo eventType =
        some ("--no-merges --first-parent " ++ jsTemplate scanInfo.baseRef ++ "^.."
          ++ jsTemplate scanInfo.headRef)) ∧
    (∀ expr, Scanner.buildGitLogOptions scanInfo eventType = some expr → expr ≠ "") := by
  refine ⟨?_, ?_, ?_⟩
  · intro heq
    rw [Scanner.buildGitLogOptions, if_pos h, if_pos heq]
  · intro hne
    rw [Scanner.buildGitLogOptions, if_pos h, if_neg hne]
  · intro expr hexpr
    rw [Scanner.buildGitLogOptions, if_pos h] at hexpr
    by_cases hbh : scanInfo.baseRef = scanInfo.headRef
    · rw [if_pos hbh] at hexpr
      have := Option.some.inj hexpr
      subst this
      decide
    · rw [if_neg hbh] at hexpr
      have hval := Option.some.inj hexpr
      intro hnil
      rw [hnil] at hval
      have hlen := congrArg String.length hval
      rw [String.length_append, String.length_append, String.length_append] at hlen
      have h27 : ("--no-merges --first-parent " : String).length = 27 := rfl
      have h0 : ("" : String).length = 0 := rfl
      omega

/-- Witness for C5: concrete equal and distinct ref pairs on a push event. -/
theorem c5_witness :
    Scanner.buildGitLogOptions { baseRef := some "aaa", headRef := some "aaa" } "push"
      = some "-1" ∧
    Scanner.buildGitLogOptions { baseRef := some "aaa", headRef := some "bbb" } "push"
      = some "--no-merges --first-parent aaa^..bbb" := by
  constructor
  · exact (c5_log_range { baseRef := some "aaa", headRef := some "aaa" } "push"
      (Or.inl rfl)).1 rfl
  · exact (c5_log_range { baseRef := some "aaa", headRef := some "bbb" } "push"
      (Or.inl rfl)).2.1 (by decide)

/-- C6: pull-request range selection — a truthy explicit base-ref override
forces a commit-list fetch, uses the override as base and the last listed
commit as head; otherwise the payload base/head SHAs are used without a
fetch; otherwise the commit list is fetched and its first and last entries
become base and head. -/
theorem c6_pr_range_selection (baseRefEnv : Option String)
    (eventJSON : Scanner.EventJSON) (commits : List Scanner.CommitRef)
    (first last : Scanner.CommitRef)
    (hfirst : commits.head? = some first) (hlast : commits.getLast? = some last) :
    (∀ b, baseRefEnv = some b → b ≠ "" →
      Scanner.scanPullRequestRange baseRefEnv eventJSON commits =
        some (true, { baseRef := some b, headRef := some last.sha })) ∧
    (jsTruthy baseRefEnv = false →
      (∀ pr, eventJSON.pull_request = some pr →
        Scanner.scanPullRequestRange baseRefEnv eventJSON commits =
          some (false, { baseRef := some pr.base.sha, headRef := some pr.head.sha })) ∧
      (eventJSON.pull_request = none →
        Scanner.scanPullRequestRange baseRefEnv eventJSON commits =
          some (true, { baseRef := some first.sha, headRef := some last.sha }))) := by
  constructor
  · intro b hb hbne
    subst hb
    simp [Scanner.scanPullRequestRange, jsTruthy, hbne,
      Scanner.buildScanInfoFromCommits, hfirst, hlast, jsOr]
  · intro htr
    constructor
    · intro pr hpr
      simp [Scanner.scanPullRequestRange, htr, hpr]
    · intro hpr
      simp [Scanner.scanPullRequestRange, htr, hpr,
        Scanner.buildScanInfoFromCommits, hfirst, hlast, jsOr]

/-- Witness for C6: a concrete override on a two-commit pull request uses
the override as base and the last commit as head, after a fetch. -/
theorem c6_witness :
    Scanner.scanPullRequestRange (some "base0")
      { repository := { full_name := "o/r" }, number := 1, pull_request := none }
      [{ sha := "c1" }, { sha := "c2" }] =
      some (true, { baseRef := some "base0", headRef := some "c2" }) := by
  have h := c6_pr_range_selection (some "base0")
    { repository := { full_name := "o/r" }, number := 1, pull_request := none }
    [{ sha := "c1" }, { sha := "c2" }] { sha := "c1" } { sha := "c2" } rfl rfl
  exact h.1 "base0" rfl (by decide)

/-- C7 (amended): the binary-cache key is computed from the version, the
RAW (unnormalized) platform name, and the architecture; only the release
URL normalizes the platform, so on platform `win32` the cache key contains
`win32` while the release URL contains `windows`. -/
theorem c7_cache_key_raw_platform (version platform arch : String) :
    (Scanner.installProvisioning version platform arch).cacheKey =
      "gitleaks-cache-" ++ version ++ "-" ++ platform ++ "-" ++ arch ∧
    (Scanner.installProvisioning version platform arch).releaseUrl =
      Scanner.GITLEAKS_CONFIG.releaseBaseUrl ++ "/v" ++ version ++ "/" ++
        ("gitleaks_" ++ version ++ "_" ++ Scanner.normalizePlatform platform ++ "_"
          ++ arch ++ ".tar.gz") ∧
    (Scanner.installProvisioning version "win32" arch).cacheKey ≠
      "gitleaks-cache-" ++ version ++ "-" ++ Scanner.normalizePlatform "win32" ++ "-" ++ arch := by
  refine ⟨rfl, rfl, ?_⟩
  intro heq
  have hnorm : Scanner.normalizePlatform "win32" = "windows" := by decide
  rw [hnorm] at heq
  have hlen := congrArg String.length heq
  rw [Scanner.installProvisioning] at hlen
  simp only [Scanner.buildCacheKey, String.length_append] at hlen
  have h5 : ("win32" : String).length = 5 := rfl
  have h7 : ("windows" : String).length = 7 := rfl
  omega

/-- Witness for C7 at concrete inputs: on `win32` the cache key keeps the
raw platform name and differs from its normalized variant. -/
theorem c7_witness :
    Scanner.buildCacheKey "8.24.3" "win32" "x64" ≠
      "gitleaks-cache-8.24.3-" ++ Scanner.normalizePlatform "win32" ++ "-x64" := by
  intro heq
  apply (c7_cache_key_raw_platform "8.24.3" "win32" "x64").2.2
  calc (Scanner.installProvisioning "8.24.3" "win32" "x64").cacheKey
      = Scanner.buildCacheKey "8.24.3" "win32" "x64" := rfl
    _ = "gitleaks-cache-8.24.3-" ++ Scanner.normalizePlatform "win32" ++ "-x64" := heq
    _ = "gitleaks-cache-" ++ "8.24.3" ++ "-" ++ Scanner.normalizePlatform "win32"
          ++ "-" ++ "x64" := by decide

/-- C7 counterexample: the claim that the cache key uses the normalized
platform name fails at version 8.24.3, platform win32, arch x64 — the key
contains `win32` and differs from the normalized form used in the release
URL. -/
theorem c7_counterexample :
    Scanner.normalizePlatform "win32" = "windows" ∧
    Scanner.buildCacheKey "8.24.3" "win32" "x64" = "gitleaks-cache-8.24.3-win32-x64" ∧
    Scanner.buildCacheKey "8.24.3" "win32" "x64" ≠ "gitleaks-cache-8.24.3-windows-x64" ∧
    Scanner.buildReleaseUrl "8.24.3" "win32" "x64" =
      "https://github.com/zricethezav/gitleaks/releases/download/v8.24.3/gitleaks_8.24.3_windows_x64.tar.gz" := by
  refine ⟨by decide, by decide, by decide, by decide⟩

/-- C8 (the code evaluated against the documented option): the variable
`GITLEAKS_CONFIG`, documented in the README as the path to a custom engine
configuration file, is never read — the parsed configuration is identical
whether the variable is set or absent, and the engine invocation built by
`buildScanCommand` never carries a `--config=` argument (its arguments
never start with the nine characters `--config=`). -/
theorem c8_gitleaks_config_ignored (env : Main.Env) (configPath : Option String)
    (scanInfo : Scanner.ScanInfo) (eventType : String) :
    Main.parseEnvironmentConfig { env with GITLEAKS_CONFIG := configPath } =
      Main.parseEnvironmentConfig env ∧
    ∀ arg ∈ Scanner.buildScanCommand scanInfo eventType,
      arg.data.take 9 ≠ ("--config=" : String).data := by
  refine ⟨rfl, ?_⟩
  intro arg hmem
  simp only [Scanner.buildScanCommand] at hmem
  by_cases htr : jsTruthy (Scanner.buildGitLogOptions scanInfo eventType) = true
  · rw [if_pos htr] at hmem
    simp only [List.mem_append, List.mem_cons, List.mem_singleton,
      List.not_mem_nil, or_false] at hmem
    rcases hmem with (h | h | h | h | h | h | h) | h <;> subst h
    all_goals first
      | decide
      | (rw [take9_log_opts_arg]; decide)
  · rw [if_neg htr] at hmem
    simp only [List.mem_cons, List.not_mem_nil, or_false] at hmem
    rcases hmem with h | h | h | h | h | h | h <;> subst h <;> decide

/-- Witness for C8: with the README's example value the configuration is
unchanged and the concrete pull-request scan command carries no `--config=`
argument. -/
theorem c8_witness :
    Main.parseEnvironmentConfig { GITLEAKS_CONFIG := some ".github/gitleaks.toml" } =
      Main.parseEnvironmentConfig {} ∧
    ("--config=.github/gitleaks.toml" ∉
      Scanner.buildScanCommand { baseRef := some "a", headRef := some "b" } "pull_request") := by
  have h := c8_gitleaks_config_ignored {} (some ".github/gitleaks.toml")
    { baseRef := some "a", headRef := some "b" } "pull_request"
  refine ⟨h.1, ?_⟩
  intro hmem
  exact h.2 _ hmem (by decide)

/-- C10: flag parsing is asymmetric — the summary and artifact-upload flags
are disabled exactly by the values `false` and `0` (anything else,
including unset, keeps the default enabled), while the PR-comments flag is
disabled only by exactly `false`: the value `0` leaves commenting enabled. -/
theorem c10_boolean_env_asymmetry (env : Main.Env) :
    ((Main.parseEnvironmentConfig env).enableSummary = false ↔
      (env.GITLEAKS_ENABLE_SUMMARY = some "false" ∨
        env.GITLEAKS_ENABLE_SUMMARY = some "0")) ∧
    ((Main.parseEnvironmentConfig env).enableUploadArtifact = false ↔
      (env.GITLEAKS_ENABLE_UPLOAD_ARTIFACT = some "false" ∨
        env.GITLEAKS_ENABLE_UPLOAD_ARTIFACT = some "0")) ∧
    (Scanner.shouldPostComments env.GITLEAKS_ENABLE_COMMENTS = false ↔
      env.GITLEAKS_ENABLE_COMMENTS = some "false") ∧
    Scanner.shouldPostComments (some "0") = true := by
  refine ⟨?_, ?_, ?_, by decide⟩
  · by_cases h : env.GITLEAKS_ENABLE_SUMMARY = some "false" ∨
        env.GITLEAKS_ENABLE_SUMMARY = some "0" <;>
      simp [Main.parseEnvironmentConfig, Main.parseBooleanEnv, h]
  · by_cases h : env.GITLEAKS_ENABLE_UPLOAD_ARTIFACT = some "false" ∨
        env.GITLEAKS_ENABLE_UPLOAD_ARTIFACT = some "0" <;>
      simp [Main.parseEnvironmentConfig, Main.parseBooleanEnv, h]
  · by_cases h : env.GITLEAKS_ENABLE_COMMENTS = some "false" <;>
      simp [Scanner.shouldPostComments, h]

/-- Witness for C10 at concrete values: `0` disables the summary but leaves
PR commenting enabled. -/
theorem c10_witness :
    (Main.parseEnvironmentConfig
        { GITLEAKS_ENABLE_SUMMARY := some "0",
          GITLEAKS_ENABLE_COMMENTS := some "0" }).enableSummary = false ∧
    Scanner.shouldPostComments (some "0") = true := by
  have h := c10_boolean_env_asymmetry
    { GITLEAKS_ENABLE_SUMMARY := some "0",
      GITLEAKS_ENABLE_COMMENTS := some "0" }
  exact ⟨h.1.mpr (Or.inr rfl), h.2.2.2⟩


/-- C3 (amended): over findings whose commitSha, filePath and ruleId
contain no `:` character, the fingerprint is injective in the tuple
(commitSha, filePath, ruleId, startLine) — two such findings that differ in
at least one of the four fields have different fingerprints. -/
theorem c3_fingerprint_injective (res1 res2 : SarifResult) (l1 l2 : SarifLocation)
    (h1 : res1.locations.head? = some l1) (h2 : res2.locations.head? = some l2)
    (hc1 : colonFree res1.partialFingerprints.commitSha)
    (hc2 : colonFree res2.partialFingerprints.commitSha)
    (hf1 : colonFree l1.physicalLocation.artifactLocation.uri)
    (hf2 : colonFree l2.physicalLocation.artifactLocation.uri)
    (hr1 : colonFree res1.ruleId) (hr2 : colonFree res2.ruleId)
    (hne : res1.partialFingerprints.commitSha ≠ res2.partialFingerprints.commitSha ∨
      l1.physicalLocation.artifactLocation.uri ≠ l2.physicalLocation.artifactLocation.uri ∨
      res1.ruleId ≠ res2.ruleId ∨
      l1.physicalLocation.region.startLine ≠ l2.physicalLocation.region.startLine) :
    Scanner.buildSecretFingerprint res1 ≠ Scanner.buildSecretFingerprint res2 := by
  intro heq
  rw [Scanner.buildSecretFingerprint, Scanner.buildSecretFingerprint, h1, h2] at heq
  simp only [Option.map_some', Option.some.injEq] at heq
  obtain ⟨e1, e2, e3, e4⟩ :=
    fingerprint_fields_eq _ _ _ _ _ _ _ _ hc1 hc2 hf1 hf2 hr1 hr2 heq
  rcases hne with hne | hne | hne | hne
  · exact hne e1
  · exact hne e2
  · exact hne e3
  · exact hne e4

/-- Witness for C3: two concrete colon-free findings differing only in
ruleId have different fingerprints. -/
theorem c3_witness :
    Scanner.buildSecretFingerprint
        { ruleId := "aws-key",
          partialFingerprints := { commitSha := "bbb2222" },
          locations :=
            [{ physicalLocation :=
                { artifactLocation := { uri := "config.yml" },
                  region := { startLine := 12 } } }] } ≠
      Scanner.buildSecretFingerprint
        { ruleId := "generic-api-key",
          partialFingerprints := { commitSha := "bbb2222" },
          locations :=
            [{ physicalLocation :=
                { artifactLocation := { uri := "config.yml" },
                  region := { startLine := 12 } } }] } :=
  c3_fingerprint_injective _ _ _ _ rfl rfl (by decide) (by decide) (by decide) (by decide)
    (by decide) (by decide) (Or.inr (Or.inr (Or.inl (by decide))))

/-- C3 counterexample: as stated over arbitrary findings the claim is
false — two findings that differ in commitSha and in filePath produce the
same fingerprint when a field contains the `:` separator, because the
separator positions shift. -/
theorem c3_counterexample :
    (({ ruleId := "r", partialFingerprints := { commitSha := "c" }, locations := [{ physicalLocation := { artifactLocation := { uri := "a:b" }, region := { startLine := 1 } } }] } : SarifResult).partialFingerprints.commitSha ≠
      ({ ruleId := "r", partialFingerprints := { commitSha := "c:a" }, locations := [{ physicalLocation := { artifactLocation := { uri := "b" }, region := { startLine := 1 } } }] } : SarifResult).partialFingerprints.commitSha) ∧
    (({ ruleId := "r", partialFingerprints := { commitSha := "c" }, locations := [{ physicalLocation := { artifactLocation := { uri := "a:b" }, region := { startLine := 1 } } }] } : SarifResult).locations.head?.map
        (fun l => l.physicalLocation.artifactLocation.uri) ≠
      ({ ruleId := "r", partialFingerprints := { commitSha := "c:a" }, locations := [{ physicalLocation := { artifactLocation := { uri := "b" }, region := { startLine := 1 } } }] } : SarifResult).locations.head?.map
        (fun l => l.physicalLocation.artifactLocation.uri)) ∧
    Scanner.buildSecretFingerprint { ruleId := "r", partialFingerprints := { commitSha := "c" }, locations := [{ physicalLocation := { artifactLocation := { uri := "a:b" }, region := { startLine := 1 } } }] } =
      Scanner.buildSecretFingerprint { ruleId := "r", partialFingerprints := { commitSha := "c:a" }, locations := [{ physicalLocation := { artifactLocation := { uri := "b" }, region := { startLine := 1 } } }] } := by
  exact ⟨by decide, by decide, by decide⟩


/-- C2: comment posting is idempotent — if a run posts `posted1` against the
existing comments `existing1`, a second run over the same findings against
any existing-comment set containing both `existing1` and the comments the
first run produced (body, path, line unchanged) posts zero new comments;
and in a leaks-detected run a listed finding's comment is withheld exactly
when some existing comment matches its body, path and line. -/
theorem c2_posting_idempotent (exitCode : Nat) (sarifFile : Option Sarif)
    (existing1 existing2 : List Scanner.ExistingComment) (owner repo : String)
    (pullNumber : Nat) (userList : Option String) (posted1 : List Scanner.PRComment)
    (hrun : Scanner.postPullRequestComments exitCode sarifFile existing1 owner repo
      pullNumber userList = some posted1)
    (hmono : ∀ e ∈ existing1, e ∈ existing2)
    (hposted : ∀ c ∈ posted1, Scanner.toExistingComment c ∈ existing2) :
    Scanner.postPullRequestComments exitCode sarifFile existing2 owner repo
      pullNumber userList = some [] ∧
    ∀ secrets s c, exitCode = Scanner.EXIT_CODES.LEAKS_DETECTED →
      Scanner.parseSarifFile sarifFile = some secrets → s ∈ secrets →
      Scanner.buildReviewComment s owner repo pullNumber userList = some c →
      (c ∉ posted1 ↔ Scanner.commentAlreadyExists existing1 c = true) := by
  constructor
  · rw [Scanner.postPullRequestComments] at hrun ⊢
    by_cases hexit : exitCode ≠ Scanner.EXIT_CODES.LEAKS_DETECTED
    · rw [if_pos hexit]
    · rw [if_neg hexit] at hrun ⊢
      rcases hp : Scanner.parseSarifFile sarifFile with _ | secrets
      · rfl
      · rw [hp] at hrun
        have hrun' : (if secrets.length = 0 then (some [] : Option (List Scanner.PRComment))
            else Scanner.postCommentsLoop existing1 owner repo pullNumber userList secrets)
            = some posted1 := hrun
        show (if secrets.length = 0 then (some [] : Option (List Scanner.PRComment))
            else Scanner.postCommentsLoop existing2 owner repo pullNumber userList secrets)
            = some []
        by_cases hlen : secrets.length = 0
        · rw [if_pos hlen]
        · rw [if_neg hlen] at hrun' ⊢
          obtain ⟨posted2, h2⟩ := postCommentsLoop_isSome secrets posted1 hrun'
          rw [h2]
          congr 1
          rw [List.eq_nil_iff_forall_not_mem]
          intro c hc
          obtain ⟨hnd2, sres, hs, hb⟩ := (postCommentsLoop_mem secrets posted2 h2 c).mp hc
          have hmem1 := postCommentsLoop_mem secrets posted1 hrun' c
          by_cases hin : c ∈ posted1
          · have hdup2 := commentAlreadyExists_of_toExisting_mem c (hposted c hin)
            rw [hdup2] at hnd2
            exact absurd hnd2 (by decide)
          · have hdup1 : Scanner.commentAlreadyExists existing1 c = true := by
              cases hcase : Scanner.commentAlreadyExists existing1 c
              · exact absurd (hmem1.mpr ⟨hcase, sres, hs, hb⟩) hin
              · rfl
            have hdup2 := commentAlreadyExists_mono hmono c hdup1
            rw [hdup2] at hnd2
            exact absurd hnd2 (by decide)
  · intro secrets sres c hexit hp hs hb
    rw [Scanner.postPullRequestComments, if_neg (fun hne => hne hexit), hp] at hrun
    have hrun' : (if secrets.length = 0 then (some [] : Option (List Scanner.PRComment))
        else Scanner.postCommentsLoop existing1 owner repo pullNumber userList secrets)
        = some posted1 := hrun
    have hlen : ¬ secrets.length = 0 := by
      intro h0
      rw [List.length_eq_zero] at h0
      subst h0
      exact absurd hs (List.not_mem_nil sres)
    rw [if_neg hlen] at hrun'
    have hmem := postCommentsLoop_mem secrets posted1 hrun' c
    constructor
    · intro hnot
      cases hcase : Scanner.commentAlreadyExists existing1 c
      · exact absurd (hmem.mpr ⟨hcase, sres, hs, hb⟩) hnot
      · rfl
    · intro hdup hin
      obtain ⟨hf, _⟩ := hmem.mp hin
      rw [hdup] at hf
      exact absurd hf (by decide)

/-- Witness for C2: a concrete leaks-detected run with one finding posts
its comment on the first run, and a second run against exactly the
comments the first run posted posts zero new comments. -/
theorem c2_witness :
    Scanner.postPullRequestComments 2
      (some { runs := some [{ results := some [{ ruleId := "aws-key", partialFingerprints := { commitSha := "bbb2222" }, locations := [{ physicalLocation := { artifactLocation := { uri := "config.yml" }, region := { startLine := 12 } } }] }] }] })
      (((Scanner.postPullRequestComments 2
            (some { runs := some [{ results := some [{ ruleId := "aws-key", partialFingerprints := { commitSha := "bbb2222" }, locations := [{ physicalLocation := { artifactLocation := { uri := "config.yml" }, region := { startLine := 12 } } }] }] }] })
            [] "octo" "repo" 5 none).getD []).map Scanner.toExistingComment)
      "octo" "repo" 5 none = some [] := by
  exact (c2_posting_idempotent 2
    (some { runs := some [{ results := some [{ ruleId := "aws-key", partialFingerprints := { commitSha := "bbb2222" }, locations := [{ physicalLocation := { artifactLocation := { uri := "config.yml" }, region := { startLine := 12 } } }] }] }] })
    []
    (((Scanner.postPullRequestComments 2
        (some { runs := some [{ results := some [{ ruleId := "aws-key", partialFingerprints := { commitSha := "bbb2222" }, locations := [{ physicalLocation := { artifactLocation := { uri := "config.yml" }, region := { startLine := 12 } } }] }] }] })
        [] "octo" "repo" 5 none).getD []).map Scanner.toExistingComment)
    "octo" "repo" 5 none
    ((Scanner.postPullRequestComments 2
        (some { runs := some [{ results := some [{ ruleId := "aws-key", partialFingerprints := { commitSha := "bbb2222" }, locations := [{ physicalLocation := { artifactLocation := { uri := "config.yml" }, region := { startLine := 12 } } }] }] }] })
        [] "octo" "repo" 5 none).getD [])
    rfl
    (by simp)
    (fun c hc => List.mem_map_of_mem Scanner.toExistingComment hc)).1

/-- C9: a leaks-found run whose structured report is missing, malformed, or
lacks `runs[0].results`, or yields zero findings, does not fail — the
summary degrades to the generic "leaks reported but no details" heading and
comment posting is skipped entirely (zero comments posted). -/
theorem c9_degraded_report (sarifFile : Option Sarif) (repoUrl : String)
    (existing : List Scanner.ExistingComment) (owner repo : String) (pullNumber : Nat)
    (userList : Option String)
    (h : Scanner.parseSarifFile sarifFile = none ∨
      Scanner.parseSarifFile sarifFile = some []) :
    Main.writeLeaksDetectedSummary sarifFile repoUrl =
      some (.heading "⚠️ Gitleaks reported leaks but no details found") ∧
    Scanner.postPullRequestComments Scanner.EXIT_CODES.LEAKS_DETECTED sarifFile existing
      owner repo pullNumber userList = some [] := by
  have hp : Main.parseSarifResults sarifFile = Scanner.parseSarifFile sarifFile := by
    rw [parseSarifResults_eq_parseSarifFile]
  constructor
  · rw [Main.writeLeaksDetectedSummary, hp]
    rcases h with h | h <;> rw [h]
    rfl
  · rcases h with h | h <;>
      simp [Scanner.postPullRequestComments, h]

/-- Witness for C9: a concrete report whose single run has no `results`
key yields the degraded heading and zero comments. -/
theorem c9_witness :
    Main.writeLeaksDetectedSummary (some { runs := some [{ results := none }] }) "u" =
      some (.heading "⚠️ Gitleaks reported leaks but no details found") ∧
    Scanner.postPullRequestComments 2 (some { runs := some [{ results := none }] })
      [] "o" "r" 1 none = some [] :=
  c9_degraded_report (some { runs := some [{ results := none }] }) "u" [] "o" "r" 1 none
    (Or.inl rfl)


end GitleaksAction
